import Mathlib

/-!
Verification of `src/packages/amplify-codegen-appsync-model-plugin/src/visitors/appsync-java-visitor.ts`
(`AppSyncModelJavaVisitor`), a code generator that turns normalized schema
models into Java data-class declarations.

The visitor is embedded shallowly: each generator method becomes a Lean
function over the schema data model.  The rendering collaborator
(`JavaDeclarationBlock`) and the pretty printer are external per the spec,
so each generator is embedded as the structured data it feeds into the
declaration block (member lists, method argument lists, body lines), not as
final indented text.  The mutable `additionalPackages : Set<string>` field
is embedded as an explicitly threaded `List String` accumulator with
insertion-ordered set semantics, matching a JavaScript `Set`.

Helpers that live in this repository but outside the extracted source
(the base `AppSyncModelVisitor`, the `change-case` naming conventions, the
native-type mapping) are either parameters of `VisitorEnv` or definitions
whose doc comment starts with `Modelled from the spec:`.
-/

set_option maxRecDepth 4096

namespace AmplifyJava

/-- Argument value of a schema directive.  The spec's data model fixes the
value domain: scalar (number), string, or ordered list of strings. -/
inductive CodeGenArgValue where
  | str (s : String)
  | num (n : Int)
  | lst (l : List String)
deriving DecidableEq, Inhabited

/-- Directive attached to a model or a field: a name plus a mapping from
argument name to argument value (JavaScript object, so keys are unique and
iteration follows insertion order — embedded as an association list). -/
structure CodeGenDirective where
  name : String
  arguments : List (String × CodeGenArgValue)
deriving DecidableEq, Inhabited

/-- One field of a model: name, declared type reference, nullability flag,
and its directives (mirrors the `CodeGenField` input type). -/
structure CodeGenField where
  name : String
  type : String
  isNullable : Bool
  directives : List CodeGenDirective
deriving DecidableEq, Inhabited

/-- One model: name, ordered field sequence, directives (mirrors the
`CodeGenModel` input type). -/
structure CodeGenModel where
  name : String
  fields : List CodeGenField
  directives : List CodeGenDirective
deriving DecidableEq, Inhabited

/-- External collaborators the visitor calls but which are out of scope per
the spec (the `change-case` naming conventions, the base visitor's
native-type mapping and name mapping, the fixed import lists from
`java-config`).  The embedding is parameterized over them. -/
structure VisitorEnv where
  pascalCase : String → String
  camelCase : String → String
  constantCase : String → String
  baseNativeType : CodeGenField → String
  modelNameOf : CodeGenModel → String
  classImportPackages : List String

/-- Modelled from the spec: `getFieldName` lives in the base
`AppSyncModelVisitor` (not under `src/`); spec §4.1 fixes the output member
name convention to lower camel case of the raw field name. -/
def getFieldName (env : VisitorEnv) (field : CodeGenField) : String :=
  env.camelCase field.name

/-- Modelled from the spec: `READ_ONLY_FIELDS` lives in the base visitor
(not under `src/`); spec §4.2 step 2 fixes the identity-field convention to
the field named `id`. -/
def READ_ONLY_FIELDS : List String := ["id"]

/-- `getFieldGetterName` (source line 422): `get` + pascal case of the raw
field name. -/
def getFieldGetterName (env : VisitorEnv) (field : CodeGenField) : String :=
  "get" ++ env.pascalCase field.name

/-- `getStepFunctionName` (source line 430): camel case of the field name. -/
def getStepFunctionName (env : VisitorEnv) (field : CodeGenField) : String :=
  env.camelCase field.name

/-- `getStepFunctionArgumentName` (source line 438): camel case of the field
name. -/
def getStepFunctionArgumentName (env : VisitorEnv) (field : CodeGenField) : String :=
  env.camelCase field.name

/-- `getStepInterfaceName` (source lines 529-531):
`I` + pascal case of the next field name + `Step`. -/
def getStepInterfaceName (env : VisitorEnv) (nextFieldName : String) : String :=
  "I" ++ env.pascalCase nextFieldName ++ "Step"

/-- Insertion into the `additionalPackages` set (a JavaScript `Set` keeps
insertion order and ignores re-insertions). -/
def addPackage (st : List String) (p : String) : List String :=
  if p ∈ st then st else st ++ [p]

/-- `getNativeType` override (source lines 461-469): resolve the field's
native type; if it is a qualified name (contains `.`), register the
qualified name in `additionalPackages` and return the trailing simple-name
segment, else return it unchanged.  Returns (type name, updated set). -/
def getNativeType (env : VisitorEnv) (st : List String) (field : CodeGenField) :
    String × List String :=
  let nativeType := env.baseNativeType field
  if nativeType.data.contains '.' then
    ((nativeType.splitOn ".").getLastD "", addPackage st nativeType)
  else
    (nativeType, st)

/-- State-threaded map: runs an accumulator-mutating generator over a list
in order, collecting the produced values (the shape of every `forEach` in
the visitor that calls `getNativeType`). -/
def stMap {σ α β : Type} (f : σ → α → β × σ) : σ → List α → List β × σ
  | st, [] => ([], st)
  | st, a :: as =>
    let r := f st a
    let rest := stMap f r.2 as
    (r.1 :: rest.1, rest.2)

/-- Non-nullable fields of a model, declared order preserved
(source line 228 / line 274). -/
def nonNullableFields (m : CodeGenModel) : List CodeGenField :=
  m.fields.filter (fun f => !f.isNullable)

/-- Nullable fields of a model, declared order preserved
(source line 229 / line 275). -/
def nullableFields (m : CodeGenModel) : List CodeGenField :=
  m.fields.filter (fun f => f.isNullable)

/-- The filtered required list of `generateStepBuilderInterfaces`
(source line 230): non-nullable fields without the read-only (identity)
fields. -/
def nonIdFieldsOf (m : CodeGenModel) : List CodeGenField :=
  (nonNullableFields m).filter (fun f => !(READ_ONLY_FIELDS.contains f.name))

/-- The builder's own step-field list (source line 276); computed by the
same filters as `nonIdFieldsOf`. -/
def stepFieldsOf (m : CodeGenModel) : List CodeGenField :=
  (nonNullableFields m).filter (fun f => !(READ_ONLY_FIELDS.contains f.name))

/-- One step interface produced by `generateStepBuilderInterfaces`
(source lines 231-245): its name and the single method it declares, kept as
the components the source computes (`interfaceName`, `returnType` after
`getStepInterfaceName`, `methodName`, `argumentType`, `argumentName`). -/
structure StepInterface where
  interfaceName : String
  methodReturnType : String
  methodName : String
  methodArgType : String
  methodArgName : String
deriving DecidableEq, Inhabited

/-- Builds the step interface for the field at index `idx` of the filtered
required list `nonId` (source lines 231-244), threading the
`additionalPackages` set through `getNativeType`. -/
def mkStepInterface (env : VisitorEnv) (st : List String) (nonId : List CodeGenField)
    (idx : Nat) (field : CodeGenField) : StepInterface × List String :=
  ({ interfaceName := getStepInterfaceName env field.name
     methodReturnType :=
       getStepInterfaceName env
         (if nonId.length - 1 == idx then "Build" else (nonId.getD (idx + 1) default).name)
     methodName := getStepFunctionName env field
     methodArgType := (getNativeType env st field).1
     methodArgName := getStepFunctionArgumentName env field },
   (getNativeType env st field).2)

/-- The indexed `map` of source line 231, with the `additionalPackages`
state threaded left to right. -/
def stepInterfacesAux (env : VisitorEnv) (nonId : List CodeGenField) :
    Nat → List String → List CodeGenField → List StepInterface × List String
  | _, st, [] => ([], st)
  | idx, st, f :: fs =>
    let r := mkStepInterface env st nonId idx f
    let rest := stepInterfacesAux env nonId (idx + 1) r.2 fs
    (r.1 :: rest.1, rest.2)

/-- `generateStepBuilderInterfaces` (source lines 227-266): produces the
step interfaces for the filtered required fields, then the terminal build
interface (its name and its body lines: `build()`, the throwing `id`
setter, and one setter per nullable field).  Returns those together with
the updated `additionalPackages` set. -/
def generateStepBuilderInterfaces (env : VisitorEnv) (st : List String)
    (m : CodeGenModel) :
    (List StepInterface × (String × List String)) × List String :=
  let nonId := nonIdFieldsOf m
  let ifaces := stepInterfacesAux env nonId 0 st nonId
  let nullableLines := stMap
    (fun st f =>
      let r := getNativeType env st f
      (getStepInterfaceName env "Build" ++ " " ++ getFieldName env f ++ "(" ++ r.1
         ++ " " ++ getFieldName env f ++ ");", r.2))
    ifaces.2 (nullableFields m)
  let builderBody :=
    (env.modelNameOf m ++ " build();")
      :: (getStepInterfaceName env "Build" ++ " id(String id) throws AmplifyException;")
      :: nullableLines.1
  ((ifaces.1, (getStepInterfaceName env "Build", builderBody)), nullableLines.2)

/-- The step-interface list the model's class declaration nests
(first component of `generateStepBuilderInterfaces`). -/
def stepIfacesOf (env : VisitorEnv) (st : List String) (m : CodeGenModel) :
    List StepInterface :=
  (generateStepBuilderInterfaces env st m).1.1

/-- The private slot declarations of the nested `Builder` class as
(name, type) pairs (source lines 289-292): the source iterates
`[...nonNullableFields, ...nullableFields]`, NOT the declared field
order. -/
def builderSlots (env : VisitorEnv) (st : List String) (m : CodeGenModel) :
    List (String × String) × List String :=
  stMap
    (fun st f =>
      let r := getNativeType env st f
      ((getFieldName env f, r.1), r.2))
    st (nonNullableFields m ++ nullableFields m)

/-- Return type of the static `builder()` entry method (source line 298):
the source evaluates `stepFields[0].name`; on an empty step-field list
`stepFields[0]` is `undefined` in JavaScript and the `.name` access throws
a `TypeError`, embedded here as `none`. -/
def builderEntryReturnType (env : VisitorEnv) (m : CodeGenModel) : Option String :=
  match stepFieldsOf m with
  | [] => none
  | f :: _ => some (getStepInterfaceName env f.name)

/-- The constructor parameter list of the generated `build()` call
(source line 309): every field of the model in declared order. -/
def buildParams (env : VisitorEnv) (m : CodeGenModel) : List String :=
  m.fields.map (getFieldName env)

/-- The line that opens the generated `build()` body (source line 308). -/
def buildIdSubstitutionLine : String :=
  "String id = this.id != null ? this.id : UUID.randomUUID().toString();"

/-- Body of the generated `build()` method as the source assembles it
(source lines 308-310); indentation and the embedded newline layout belong
to the external pretty printer and are flattened here. -/
def buildImplementation (env : VisitorEnv) (m : CodeGenModel) : List String :=
  [buildIdSubstitutionLine, "",
   "return new " ++ env.modelNameOf m ++ "("
     ++ String.intercalate ",\n" (buildParams env m) ++ ");"]

/-- Runtime meaning of the generated line
`String id = this.id != null ? this.id : UUID.randomUUID().toString();`:
the identity used by `build()` is the slot value when set, otherwise the
freshly generated UUID token. -/
def generatedBuildId (idSlot : Option String) (freshUUID : String) : String :=
  match idSlot with
  | some v => v
  | none => freshUUID

/-- The id slot of the generated `Builder` at generated-code runtime
(`none` models Java `null`). -/
structure BuilderState where
  id : Option String
deriving DecidableEq, Inhabited

/-- The exception object the generated id setter constructs
(source lines 369-375): message, recovery suggestion, fatality flag.  The
wrapped cause (the exception thrown by `UUID.fromString`) is a Java
library value and is not part of the generated text beyond the local
`exception` name, so it is not modelled. -/
structure AmplifyException where
  message : String
  recoverySuggestion : String
  isFatal : Bool
deriving DecidableEq, Inhabited

/-- The message literal of the generated id setter's exception
(source line 369). -/
def idSetterMessage : String := "Model IDs must be unique in the format of UUID."

/-- The recovery-suggestion literal of the generated id setter's exception:
the concatenation of the four string literals of source lines 371-374. -/
def idSetterRecovery : String :=
  "If you are creating a new object, leave ID blank and one will be auto generated for you. "
    ++ "Otherwise, if you are referencing an existing object, be sure you are getting the correct "
    ++ "id for it. It's also possible you are referring to an item created outside of Amplify."
    ++ "It is currently not supported."

/-- Runtime meaning of the generated id setter body (source lines 364-378):
`this.id = id;` runs first, then `UUID.fromString(id)` validates the
format; a failed validation throws the `AmplifyException`.  `isValidUUID`
abstracts the Java `UUID.fromString` parser.  Returns the builder state
after the call together with the thrown exception, if any. -/
def generatedIdSetter (isValidUUID : String → Bool) (st : BuilderState)
    (idArg : String) : BuilderState × Option AmplifyException :=
  let st' : BuilderState := { st with id := some idArg }
  if isValidUUID idArg then
    (st', none)
  else
    (st', some { message := idSetterMessage
                 recoverySuggestion := idSetterRecovery
                 isFatal := false })

/-- Modelled from the spec: the canonical random-unique-identifier textual
format checked by the generated setter (spec §4.3); Java's
`UUID.fromString` is outside the repository, modelled as the canonical
8-4-4-4-12 hexadecimal layout. -/
def isUUIDFormat (s : String) : Bool :=
  s.data.length == 36 &&
    s.data.enum.all (fun p =>
      if p.1 == 8 || p.1 == 13 || p.1 == 18 || p.1 == 23 then p.2 == '-'
      else p.2.isDigit || ('a' ≤ p.2 && p.2 ≤ 'f') || ('A' ≤ p.2 && p.2 ≤ 'F'))

/-- Whether `v` occurs as a contiguous substring of `msg` (used to state
that an offending value is embedded in an error message). -/
def embeddedInMessage (v msg : String) : Bool :=
  (List.range (msg.data.length + 1)).any
    (fun i => (msg.data.drop i).take v.data.length == v.data)

/-- The positional constructor arguments of the generated private
constructor as (name, type) pairs (source lines 455-457): every field in
declared order. -/
def constructorArguments (env : VisitorEnv) (st : List String) (m : CodeGenModel) :
    List (String × String) × List String :=
  stMap
    (fun st f =>
      let r := getNativeType env st f
      ((getFieldName env f, r.1), r.2))
    st m.fields

/-- The assignment lines of the generated constructor body
(source lines 448-453). -/
def constructorBodyLines (env : VisitorEnv) (m : CodeGenModel) : List String :=
  m.fields.map (fun f => "this." ++ getFieldName env f ++ " = " ++ getFieldName env f ++ ";")

/-- The pairwise getter comparisons of the generated `equals` body
(source lines 490-498), in iteration order. -/
def equalsPropChecks (env : VisitorEnv) (m : CodeGenModel) : List String :=
  m.fields.map (fun f =>
    "ObjectsCompat.equals(" ++ getFieldGetterName env f ++ "(), "
      ++ env.camelCase m.name ++ "." ++ getFieldGetterName env f ++ "())")

/-- The `.append(...)` lines of the generated `hashCode` body
(source lines 516-520), in iteration order. -/
def hashCodeAppendLines (env : VisitorEnv) (m : CodeGenModel) : List String :=
  m.fields.map (fun f => ".append(" ++ getFieldGetterName env f ++ "())")

/-- The getter methods generated by `generateGetters`
(source lines 407-415), as (method name, field returned) in declared
order. -/
def gettersOf (env : VisitorEnv) (st : List String) (m : CodeGenModel) :
    List (String × String) × List String :=
  stMap
    (fun st f =>
      let r := getNativeType env st f
      ((getFieldGetterName env f, r.1), r.2))
    st m.fields

/-- Modelled from the spec: the selector restricting which models are in
scope for a pass (`getSelectedModels` lives in the base visitor, not under
`src/`); spec §6 describes it as a selector over the ordered model map. -/
def getSelectedModels (sel : String × CodeGenModel → Bool)
    (typeMap : List (String × CodeGenModel)) : List (String × CodeGenModel) :=
  typeMap.filter sel

/-- The `.class` references the loader's `models` method lists
(source lines 78-80): `Object.values(this.typeMap)` — the FULL type map in
insertion order, not the selected subset. -/
def classLoaderModelsRefs (env : VisitorEnv)
    (typeMap : List (String × CodeGenModel)) : List String :=
  typeMap.map (fun p => env.modelNameOf p.2 ++ ".class")

/-- The set the generated `models()` method returns at generated-code
runtime: the class list poured into a `HashSet` (source lines 81-85),
i.e. the references de-duplicated. -/
def modelsMethodSet (env : VisitorEnv)
    (typeMap : List (String × CodeGenModel)) : List String :=
  (classLoaderModelsRefs env typeMap).dedup

/-- JavaScript string interpolation of a directive argument value. -/
def renderArgValue : CodeGenArgValue → String
  | .str s => s
  | .num n => toString n
  | .lst l => String.intercalate "," l

/-- JavaScript truthiness of a directive argument value: the empty string
and `0` are falsy; an array is always truthy. -/
def truthyArg : CodeGenArgValue → Bool
  | .str s => s != ""
  | .num n => n != 0
  | .lst _ => true

/-- The four string-argument keys the connection branch recognizes
(source line 568). -/
def connectionKeys : List String := ["name", "keyField", "sortField", "keyName"]

/-- The entries the `Object.keys` loop pushes (source lines 567-571): one
per argument whose key is among the recognized string keys, in iteration
order, the value string-interpolated between quotes. -/
def stringKeyEntries (d : CodeGenDirective) : List (String × String) :=
  (d.arguments.filter (fun p => connectionKeys.contains p.1)).map
    (fun p => (p.1, "\"" ++ renderArgValue p.2 ++ "\""))

/-- The entry the `if (annotation.arguments.limit)` branch pushes
(source lines 572-574): present only when the `limit` argument is truthy
(so a present `limit` of `0` pushes nothing). -/
def limitEntries (d : CodeGenDirective) : List (String × String) :=
  match d.arguments.lookup "limit" with
  | some v => if truthyArg v then [("limit", renderArgValue v)] else []
  | none => []

/-- The entry the `fields` branch pushes (source lines 575-578): present
only when the `fields` argument is truthy and an array (the rendered value
reproduces the source's doubled opening brace). -/
def fieldsEntries (d : CodeGenDirective) : List (String × String) :=
  match d.arguments.lookup "fields" with
  | some (.lst l) =>
    [("fields",
      "\x7b\x7b" ++ String.intercalate ", " (l.map (fun f => "\"" ++ f ++ "\"")) ++ "\x7d")]
  | _ => []

/-- The argument entries pushed onto `connectionArgs`
(source lines 566-578), as (key, rendered right-hand side) pairs, in push
order. -/
def connectionArgEntries (d : CodeGenDirective) : List (String × String) :=
  stringKeyEntries d ++ limitEntries d ++ fieldsEntries d

/-- The `Connection(...)` annotation produced for one directive
(source lines 580-582): rendered only when at least one argument entry was
pushed. -/
def connectionAnnotationOpt (d : CodeGenDirective) : Option String :=
  let entries := connectionArgEntries d
  if entries.isEmpty then none
  else
    some ("Connection("
      ++ String.intercalate ", " (entries.map (fun p => p.1 ++ " = " ++ p.2)) ++ ")")

/-- Whether the rendered connection argument list carries an argument for
key `k`. -/
def hasConnectionArg (d : CodeGenDirective) (k : String) : Bool :=
  (connectionArgEntries d).any (fun p => p.1 == k)

/-- `generateFieldAnnotations` (source lines 553-586): the unconditional
`ModelField(...)` annotation (with `isRequired = true` exactly for
non-nullable fields, empty arguments filtered out), followed by one
`Connection(...)` annotation per `connection` directive that yields
arguments. -/
def generateFieldAnnotations (field : CodeGenField) : List String :=
  let annotationArgs :=
    (["targetName=\"" ++ field.name ++ "\"",
      "targetType=\"" ++ field.type ++ "\"",
      if !field.isNullable then "isRequired = true" else ""]).filter
      (fun a => a != "")
  let base := "ModelField(" ++ String.intercalate ", " annotationArgs ++ ")"
  field.directives.foldl
    (fun anns d =>
      if d.name == "connection" then
        match connectionAnnotationOpt d with
        | some a => anns ++ [a]
        | none => anns
      else anns)
    [base]

/-- The `additionalPackages` mutation of one `getNativeType` call. -/
def generateFieldSt (env : VisitorEnv) (st : List String) (f : CodeGenField) :
    List String :=
  (getNativeType env st f).2

/-- The `additionalPackages` state after `generateClass` emits one model
(source lines 151-187), following the source's call order: data members,
step interfaces, builder slots, builder step methods, builder nullable
setters, getters, constructor (query fields, `equals` and `hashCode` do
not call `getNativeType`). -/
def generateClassSt (env : VisitorEnv) (st : List String) (m : CodeGenModel) :
    List String :=
  let st1 := m.fields.foldl (generateFieldSt env) st
  let st2 := (generateStepBuilderInterfaces env st1 m).2
  let st3 := (builderSlots env st2 m).2
  let st4 := (stepFieldsOf m).foldl (generateFieldSt env) st3
  let st5 := (nullableFields m).foldl (generateFieldSt env) st4
  let st6 := (gettersOf env st5 m).2
  (constructorArguments env st6 m).2

/-- The `additionalPackages` state observed at the START of each model's
class emission during `generateClasses` (source lines 138-146): the field
is a member of the visitor instance and is never cleared between models. -/
def additionalPackagesTrace (env : VisitorEnv) :
    List String → List CodeGenModel → List (List String)
  | _, [] => []
  | st, m :: ms => st :: additionalPackagesTrace env (generateClassSt env st m) ms

/-- The `additionalPackages` state after the whole pass emitted every
selected model. -/
def generateClassesSt (env : VisitorEnv) (st : List String)
    (models : List CodeGenModel) : List String :=
  models.foldl (generateClassSt env) st

/-- The import list `generatePackageHeader` renders (source line 190):
the accumulated `additionalPackages` (read, not cleared), a blank
separator, then the fixed class import packages. -/
def generatePackageHeaderImports (env : VisitorEnv) (st : List String) :
    List String :=
  st ++ [""] ++ env.classImportPackages

/-- Injective code of a character. -/
def natOfChar (c : Char) : Nat := c.toNat

/-- Injective code of a list, given a code for its elements: `nil` maps to
`0`, `cons` pairs head and tail codes and shifts by one. -/
def natOfList {α : Type} (e : α → Nat) : List α → Nat
  | [] => 0
  | a :: as => Nat.pair (e a) (natOfList e as) + 1

/-- Injective code of a string. -/
def natOfString (s : String) : Nat := natOfList natOfChar s.data

/-- Injective code of a boolean. -/
def natOfBool (b : Bool) : Nat := cond b 1 0

/-- Injective code of an integer. -/
def natOfInt : Int → Nat
  | .ofNat n => 2 * n
  | .negSucc n => 2 * n + 1

/-- Injective code of a directive argument value (tagged by constructor). -/
def natOfArgValue : CodeGenArgValue → Nat
  | .str s => Nat.pair 0 (natOfString s)
  | .num n => Nat.pair 1 (natOfInt n)
  | .lst l => Nat.pair 2 (natOfList natOfString l)

/-- Injective code of one directive-argument entry. -/
def natOfArgEntry (p : String × CodeGenArgValue) : Nat :=
  Nat.pair (natOfString p.1) (natOfArgValue p.2)

/-- Injective code of a directive. -/
def natOfDirective (d : CodeGenDirective) : Nat :=
  Nat.pair (natOfString d.name) (natOfList natOfArgEntry d.arguments)

/-- Injective code of a field: name, type, nullability and directives. -/
def natOfField (f : CodeGenField) : Nat :=
  Nat.pair (natOfString f.name)
    (Nat.pair (natOfString f.type)
      (Nat.pair (natOfBool f.isNullable) (natOfList natOfDirective f.directives)))

/-- Injective code of a model: name, fields and directives. -/
def natOfModel (m : CodeGenModel) : Nat :=
  Nat.pair (natOfString m.name)
    (Nat.pair (natOfList natOfField m.fields) (natOfList natOfDirective m.directives))

/-- Injective code of the full model collection. -/
def natOfModels (models : List CodeGenModel) : Nat :=
  natOfList natOfModel models

/-- Modelled from the spec: `computeVersion` lives in the base
`AppSyncModelVisitor` (not under `src/`); spec §4.6 requires the loader's
version string to be computed deterministically as a content hash of the
full input model collection, such that any change to any model's shape
changes the version.  Modelled as an injective content code rendered in
decimal. -/
def computeVersion (models : List CodeGenModel) : String :=
  String.mk ((Nat.digits 10 (natOfModels models)).map Nat.digitChar)

/-- The collection `models` with the type of field `i` of model `j`
replaced by `t` (the alteration spec §8 quantifies over). -/
def setFieldType (models : List CodeGenModel) (j i : Nat) (t : String) :
    List CodeGenModel :=
  let m := models.getD j default
  let f := m.fields.getD i default
  models.set j { m with fields := m.fields.set i { f with type := t } }

/-- The collection `models` with the nullability of field `i` of model `j`
replaced by `b`. -/
def setFieldNullable (models : List CodeGenModel) (j i : Nat) (b : Bool) :
    List CodeGenModel :=
  let m := models.getD j default
  let f := m.fields.getD i default
  models.set j { m with fields := m.fields.set i { f with isNullable := b } }

/-- A concrete instantiation of the external collaborators, used by the
counterexamples and witnesses: identity naming conventions, the field's
declared type as its native type, the model's raw name as its class name. -/
def env0 : VisitorEnv :=
  { pascalCase := id
    camelCase := id
    constantCase := id
    baseNativeType := fun f => f.type
    modelNameOf := fun m => m.name
    classImportPackages := [] }

/-- Concrete model with two required fields (the spec §8 `Comment`
scenario). -/
def mComment : CodeGenModel :=
  { name := "Comment"
    fields :=
      [{ name := "postId", type := "String", isNullable := false, directives := [] },
       { name := "text", type := "String", isNullable := false, directives := [] }]
    directives := [] }

/-- Concrete model whose nullable field precedes its required field. -/
def mMixed : CodeGenModel :=
  { name := "Mixed"
    fields :=
      [{ name := "a", type := "String", isNullable := true, directives := [] },
       { name := "b", type := "String", isNullable := false, directives := [] }]
    directives := [] }

/-- Concrete model with zero required fields after identity exclusion. -/
def mNote : CodeGenModel :=
  { name := "Note"
    fields :=
      [{ name := "id", type := "ID", isNullable := false, directives := [] },
       { name := "content", type := "String", isNullable := true, directives := [] }]
    directives := [] }

/-- Concrete model whose single field has a qualified native type. -/
def mDated : CodeGenModel :=
  { name := "Dated"
    fields :=
      [{ name := "createdAt", type := "java.util.Date", isNullable := true,
         directives := [] }]
    directives := [] }

/-- Concrete connection directive whose `limit` argument is present with
value `0`. -/
def dLimitZero : CodeGenDirective :=
  { name := "connection", arguments := [("limit", .num 0)] }

/-- Concrete connection directive with all three argument shapes present
and truthy. -/
def dConnFull : CodeGenDirective :=
  { name := "connection"
    arguments := [("name", .str "byOwner"), ("limit", .num 3), ("fields", .lst ["a", "b"])] }

/-- Concrete single-field model used to exercise version sensitivity. -/
def mVer : CodeGenModel :=
  { name := "Blog"
    fields := [{ name := "title", type := "String", isNullable := false, directives := [] }]
    directives := [] }

/-- Concrete empty models keyed in a two-entry type map. -/
def tmAB : List (String × CodeGenModel) :=
  [("A", { name := "A", fields := [], directives := [] }),
   ("B", { name := "B", fields := [], directives := [] })]

/-! ### Generic lemmas about the state-threaded traversals -/

/-- Mapping then testing is testing the composite. -/
theorem any_map_general {α β : Type} (f : α → β) (p : β → Bool) (l : List α) :
    (l.map f).any p = l.any (fun a => p (f a)) := by
  induction l with
  | nil => rfl
  | cons a as ih => simp [ih]

/-- The type name `getNativeType` returns does not depend on the
`additionalPackages` state. -/
theorem getNativeType_fst (env : VisitorEnv) (st st' : List String)
    (f : CodeGenField) : (getNativeType env st f).1 = (getNativeType env st' f).1 := by
  simp only [getNativeType]
  split <;> rfl

/-- The values a state-threaded map collects, when each value ignores the
state, form the plain map. -/
theorem stMap_fst {σ α β : Type} (f : σ → α → β × σ) (g : α → β)
    (h : ∀ st a, (f st a).1 = g a) :
    ∀ (st : σ) (l : List α), (stMap f st l).1 = l.map g := by
  intro st l
  induction l generalizing st with
  | nil => rfl
  | cons a as ih => simp [stMap, h, ih]

/-- The step interface built for a field does not depend on the
`additionalPackages` state. -/
theorem mkStepInterface_fst (env : VisitorEnv) (nonId : List CodeGenField)
    (idx : Nat) (f : CodeGenField) (st st' : List String) :
    (mkStepInterface env st nonId idx f).1 = (mkStepInterface env st' nonId idx f).1 := by
  simp only [mkStepInterface]
  rw [getNativeType_fst env st st' f]

/-- The chain builder produces one step interface per filtered required
field. -/
theorem stepInterfacesAux_length (env : VisitorEnv) (nonId : List CodeGenField) :
    ∀ (fs : List CodeGenField) (idx : Nat) (st : List String),
      ((stepInterfacesAux env nonId idx st fs).1).length = fs.length := by
  intro fs
  induction fs with
  | nil => intro idx st; rfl
  | cons f fs ih => intro idx st; simp [stepInterfacesAux, ih]

/-- The `i`-th interface the chain builder produces is the one built for
the `i`-th listed field at shifted index. -/
theorem stepInterfacesAux_getD (env : VisitorEnv) (nonId : List CodeGenField) :
    ∀ (fs : List CodeGenField) (idx : Nat) (st : List String) (i : Nat),
      i < fs.length →
      ((stepInterfacesAux env nonId idx st fs).1).getD i default
        = (mkStepInterface env [] nonId (idx + i) (fs.getD i default)).1 := by
  intro fs
  induction fs with
  | nil => intro idx st i h; simp at h
  | cons f fs ih =>
    intro idx st i h
    cases i with
    | zero =>
      simpa [stepInterfacesAux] using
        mkStepInterface_fst env nonId idx f st []
    | succ n =>
      have hn : n < fs.length := by
        have := h
        simp only [List.length_cons] at this
        omega
      have hrec := ih (idx + 1) (mkStepInterface env st nonId idx f).2 n hn
      have harith : idx + 1 + n = idx + (n + 1) := by omega
      rw [harith] at hrec
      simpa [stepInterfacesAux] using hrec

/-! ### C1: the step-interface chain -/

/-- C1.  For every model whose filtered required list has `k ≥ 1` entries,
`generateStepBuilderInterfaces` produces exactly `k` step interfaces plus
the one terminal build interface (named after `Build`), and the `i`-th
step interface declares exactly one method, named after field `i`, whose
return type is the step-interface name of field `i + 1` when `i` is not
last and the terminal build-interface name when `i` is last. -/
theorem stepBuilder_chain (env : VisitorEnv) (st : List String) (m : CodeGenModel)
    (_hk : 1 ≤ (nonIdFieldsOf m).length) :
    (stepIfacesOf env st m).length = (nonIdFieldsOf m).length
    ∧ (generateStepBuilderInterfaces env st m).1.2.1 = getStepInterfaceName env "Build"
    ∧ ∀ i, i < (nonIdFieldsOf m).length →
        ((stepIfacesOf env st m).getD i default).interfaceName
            = getStepInterfaceName env (((nonIdFieldsOf m).getD i default).name)
        ∧ ((stepIfacesOf env st m).getD i default).methodName
            = getStepFunctionName env ((nonIdFieldsOf m).getD i default)
        ∧ ((stepIfacesOf env st m).getD i default).methodReturnType
            = (if i = (nonIdFieldsOf m).length - 1 then getStepInterfaceName env "Build"
               else getStepInterfaceName env (((nonIdFieldsOf m).getD (i + 1) default).name)) := by
  have hifaces : stepIfacesOf env st m
      = (stepInterfacesAux env (nonIdFieldsOf m) 0 st (nonIdFieldsOf m)).1 := rfl
  refine ⟨?_, rfl, ?_⟩
  · rw [hifaces, stepInterfacesAux_length]
  · intro i hi
    rw [hifaces, stepInterfacesAux_getD env (nonIdFieldsOf m) (nonIdFieldsOf m) 0 st i hi]
    simp only [mkStepInterface, Nat.zero_add]
    refine ⟨trivial, trivial, ?_⟩
    by_cases hlast : i = (nonIdFieldsOf m).length - 1
    · have hb : ((nonIdFieldsOf m).length - 1 == i) = true := by
        simp [hlast]
      simp [hb, hlast]
    · have hb : ((nonIdFieldsOf m).length - 1 == i) = false := by
        simp [Ne.symm hlast]
      simp [hb, hlast]

/-- Witness for C1 at the spec's `Comment` scenario: two required fields,
the first step's method returns the second field's step interface. -/
theorem stepBuilder_chain_witness :
    1 ≤ (nonIdFieldsOf mComment).length
    ∧ (stepIfacesOf env0 [] mComment).length = (nonIdFieldsOf mComment).length
    ∧ ((stepIfacesOf env0 [] mComment).getD 0 default).methodReturnType
        = getStepInterfaceName env0 "text" := by
  refine ⟨by decide, (stepBuilder_chain env0 [] mComment (by decide)).1, ?_⟩
  have h := ((stepBuilder_chain env0 [] mComment (by decide)).2.2 0 (by decide)).2.2
  exact h.trans (by decide)

/-! ### C2: field-order preservation -/

/-- Counterexample to C2: for the model whose nullable field `a` precedes
its required field `b`, the builder's private slot declarations come out in
the order `[b, a]`, not the declared order `[a, b]` (the source iterates
`[...nonNullableFields, ...nullableFields]`). -/
theorem fieldOrder_builderSlots_cex :
    (builderSlots env0 [] mMixed).1.map Prod.fst
      ≠ mMixed.fields.map (getFieldName env0) := by decide

/-- C2 as amended.  The constructor's positional arguments, the `equals`
comparisons and the `hashCode` folds all iterate the model's declared
field order; the builder's private slots instead list the non-nullable
fields (declared relative order) followed by the nullable fields (declared
relative order). -/
theorem fieldOrder_amended (env : VisitorEnv) (st : List String) (m : CodeGenModel) :
    (constructorArguments env st m).1.map Prod.fst = m.fields.map (getFieldName env)
    ∧ equalsPropChecks env m
        = m.fields.map (fun f =>
            "ObjectsCompat.equals(" ++ getFieldGetterName env f ++ "(), "
              ++ env.camelCase m.name ++ "." ++ getFieldGetterName env f ++ "())")
    ∧ hashCodeAppendLines env m
        = m.fields.map (fun f => ".append(" ++ getFieldGetterName env f ++ "())")
    ∧ (builderSlots env st m).1.map Prod.fst
        = (nonNullableFields m ++ nullableFields m).map (getFieldName env) := by
  have hg : ∀ (st : List String) (f : CodeGenField),
      ((getFieldName env f, (getNativeType env st f).1), (getNativeType env st f).2).1
        = (getFieldName env f, (getNativeType env [] f).1) := by
    intro st f
    rw [getNativeType_fst env st [] f]
  refine ⟨?_, rfl, rfl, ?_⟩
  · rw [constructorArguments, stMap_fst _ _ hg, List.map_map]
    rfl
  · rw [builderSlots, stMap_fst _ _ hg, List.map_map]
    rfl

/-! ### C3: the empty step-field list -/

/-- C3 is a code bug: on a model with zero required fields after identity
exclusion, the source's `builder()` return type expression
`this.getStepInterfaceName(stepFields[0].name)` dereferences
`undefined` (embedded as `none`) instead of exposing the terminal build
interface. -/
theorem builderEntry_empty_crash : builderEntryReturnType env0 mNote = none := by
  decide

/-! ### C4: the generated build() body -/

/-- C4.  The generated `build()` body opens with the line that substitutes
a fresh UUID for an unset id slot, and then invokes the model constructor
with every field in declared order; at generated-code runtime the
substitution keeps a set id and replaces an unset one. -/
theorem build_body_spec (env : VisitorEnv) (m : CodeGenModel) :
    (buildImplementation env m).headD "" = buildIdSubstitutionLine
    ∧ buildImplementation env m
        = [buildIdSubstitutionLine, "",
           "return new " ++ env.modelNameOf m ++ "("
             ++ String.intercalate ",\n" (m.fields.map (getFieldName env)) ++ ");"]
    ∧ (∀ fresh, generatedBuildId none fresh = fresh)
    ∧ (∀ v fresh, generatedBuildId (some v) fresh = v) :=
  ⟨rfl, rfl, fun _ => rfl, fun _ _ => rfl⟩

/-! ### C5: the identity setter's error report -/

/-- Counterexample to C5: rejecting the malformed identity `abc` raises an
exception whose message is the fixed string of source line 369 — the
offending value is not embedded in the message. -/
theorem idSetter_message_cex :
    (generatedIdSetter isUUIDFormat { id := none } "abc").2
        = some { message := idSetterMessage
                 recoverySuggestion := idSetterRecovery
                 isFatal := false }
    ∧ embeddedInMessage "abc" idSetterMessage = false := by
  exact ⟨by decide, by decide⟩

/-- C5 as amended.  On any value the validator rejects, the generated id
setter raises an exception carrying the fixed malformed-identity message
(which does not embed the offending value), the remediation hint to leave
the identity unset for auto-generation, and the non-fatal flag. -/
theorem idSetter_error_spec (isValid : String → Bool) (st : BuilderState)
    (v : String) (h : isValid v = false) :
    (generatedIdSetter isValid st v).2
      = some { message := idSetterMessage
               recoverySuggestion := idSetterRecovery
               isFatal := false } := by
  simp [generatedIdSetter, h]

/-- Witness for C5's amended statement at a concrete rejected value. -/
theorem idSetter_error_spec_witness :
    isUUIDFormat "not-a-uuid" = false
    ∧ (generatedIdSetter isUUIDFormat { id := none } "not-a-uuid").2
        = some { message := idSetterMessage
                 recoverySuggestion := idSetterRecovery
                 isFatal := false } :=
  ⟨by decide, idSetter_error_spec isUUIDFormat { id := none } "not-a-uuid" (by decide)⟩

/-! ### C10: assignment precedes validation -/

/-- C10.  The generated id setter assigns the supplied value to the id slot
before validating it, so when validation rejects the value and the
exception is raised, the builder's id slot already holds the malformed
value. -/
theorem idSetter_assigns_before_validation (isValid : String → Bool)
    (st : BuilderState) (v : String) (h : isValid v = false) :
    (generatedIdSetter isValid st v).1.id = some v
    ∧ (generatedIdSetter isValid st v).2.isSome = true := by
  simp [generatedIdSetter, h]

/-- Witness for C10: a rejected value overwrites an already-set id slot. -/
theorem idSetter_assigns_before_validation_witness :
    isUUIDFormat "zzz" = false
    ∧ ((generatedIdSetter isUUIDFormat { id := some "old" } "zzz").1.id = some "zzz"
        ∧ (generatedIdSetter isUUIDFormat { id := some "old" } "zzz").2.isSome = true) :=
  ⟨by decide,
   idSetter_assigns_before_validation isUUIDFormat { id := some "old" } "zzz" (by decide)⟩

/-! ### C6: the loader's models method -/

/-- Counterexample to C6: with a selector keeping only model `A` of a
two-model type map, the loader's class list still names both models — it
iterates the full type map, not the selected subset. -/
theorem loader_models_cex :
    classLoaderModelsRefs env0 tmAB
      ≠ ((getSelectedModels (fun p => p.1 == "A") tmAB).map
          (fun p => env0.modelNameOf p.2 ++ ".class")).dedup := by decide

/-- C6 as amended.  The loader's `models` method lists the type reference
of every model in the full type map, in type-map iteration order, and the
generated `HashSet` de-duplicates at runtime; this equals the selected
models' de-duplicated references exactly when the selector keeps the whole
type map. -/
theorem loader_models_amended (env : VisitorEnv)
    (tm : List (String × CodeGenModel)) (sel : String × CodeGenModel → Bool)
    (h : getSelectedModels sel tm = tm) :
    classLoaderModelsRefs env tm = tm.map (fun p => env.modelNameOf p.2 ++ ".class")
    ∧ modelsMethodSet env tm
        = ((getSelectedModels sel tm).map
            (fun p => env.modelNameOf p.2 ++ ".class")).dedup := by
  refine ⟨rfl, ?_⟩
  rw [h]
  rfl

/-- Witness for C6's amended statement with the trivial selector. -/
theorem loader_models_amended_witness :
    getSelectedModels (fun _ => true) tmAB = tmAB
    ∧ modelsMethodSet env0 tmAB
        = ((getSelectedModels (fun _ => true) tmAB).map
            (fun p => env0.modelNameOf p.2 ++ ".class")).dedup :=
  ⟨by decide, (loader_models_amended env0 tmAB (fun _ => true) (by decide)).2⟩

/-! ### C8: connection annotation arguments -/

/-- The string-key entries carry key `k` exactly when `k` is a recognized
key and an argument with key `k` is present. -/
theorem stringKeyEntries_any_iff (d : CodeGenDirective) (k : String) :
    (stringKeyEntries d).any (fun p => p.1 == k) = true
      ↔ k ∈ connectionKeys ∧ ∃ v, (k, v) ∈ d.arguments := by
  unfold stringKeyEntries
  rw [any_map_general, List.any_filter, List.any_eq_true]
  constructor
  · rintro ⟨p, hp, hcond⟩
    rw [Bool.and_eq_true] at hcond
    have hk : p.1 = k := by simpa using hcond.2
    subst hk
    refine ⟨List.elem_iff.mp hcond.1, p.2, ?_⟩
    simpa using hp
  · rintro ⟨hk, v, hv⟩
    refine ⟨(k, v), hv, ?_⟩
    simpa using hk

/-- The limit entry carries key `k` exactly when `k` is `limit` and the
`limit` argument is present and truthy. -/
theorem limitEntries_any_iff (d : CodeGenDirective) (k : String) :
    (limitEntries d).any (fun p => p.1 == k) = true
      ↔ "limit" = k ∧ ∃ v, d.arguments.lookup "limit" = some v ∧ truthyArg v = true := by
  unfold limitEntries
  cases hL : d.arguments.lookup "limit" with
  | none => simp
  | some v => cases ht : truthyArg v <;> simp [ht]

/-- The fields entry carries key `k` exactly when `k` is `fields` and the
`fields` argument is present with a list value. -/
theorem fieldsEntries_any_iff (d : CodeGenDirective) (k : String) :
    (fieldsEntries d).any (fun p => p.1 == k) = true
      ↔ "fields" = k ∧ ∃ l, d.arguments.lookup "fields" = some (.lst l) := by
  unfold fieldsEntries
  cases hF : d.arguments.lookup "fields" with
  | none => simp
  | some v => cases v <;> simp

/-- Counterexample to C8: the directive carrying `limit` with value `0`
has the key present, yet the rendered argument list carries no `limit`
argument (JavaScript truthiness drops it), so presence and rendering are
not equivalent. -/
theorem connection_args_cex :
    ¬ (hasConnectionArg dLimitZero "limit" = true
        ↔ "limit" ∈ dLimitZero.arguments.map Prod.fst) := by decide

/-- C8 as amended.  Each recognized string key is rendered iff present;
the `limit` argument is rendered iff present with a truthy (nonzero)
value; the `fields` argument is rendered iff present with a list value;
and the `Connection` annotation is emitted iff some argument rendered. -/
theorem connection_args_amended (d : CodeGenDirective) :
    (∀ k, k ∈ connectionKeys →
        (hasConnectionArg d k = true ↔ ∃ v, (k, v) ∈ d.arguments))
    ∧ (hasConnectionArg d "limit" = true
        ↔ ∃ v, d.arguments.lookup "limit" = some v ∧ truthyArg v = true)
    ∧ (hasConnectionArg d "fields" = true
        ↔ ∃ l, d.arguments.lookup "fields" = some (.lst l))
    ∧ ((connectionAnnotationOpt d).isSome = true ↔ connectionArgEntries d ≠ []) := by
  have hsplit : ∀ k, hasConnectionArg d k = true
      ↔ ((stringKeyEntries d).any (fun p => p.1 == k) = true
          ∨ (limitEntries d).any (fun p => p.1 == k) = true
          ∨ (fieldsEntries d).any (fun p => p.1 == k) = true) := by
    intro k
    unfold hasConnectionArg connectionArgEntries
    simp [List.any_append, Bool.or_eq_true, or_assoc]
  refine ⟨?_, ?_, ?_, ?_⟩
  · intro k hk
    rw [hsplit, stringKeyEntries_any_iff, limitEntries_any_iff, fieldsEntries_any_iff]
    constructor
    · rintro (h | h | h)
      · exact h.2
      · exfalso
        rw [← h.1] at hk
        exact absurd hk (by decide)
      · exfalso
        rw [← h.1] at hk
        exact absurd hk (by decide)
    · intro h
      exact Or.inl ⟨hk, h⟩
  · rw [hsplit, stringKeyEntries_any_iff, limitEntries_any_iff, fieldsEntries_any_iff]
    constructor
    · rintro (h | h | h)
      · exact absurd h.1 (by decide)
      · exact h.2
      · exact absurd h.1 (by decide)
    · intro h
      exact Or.inr (Or.inl ⟨rfl, h⟩)
  · rw [hsplit, stringKeyEntries_any_iff, limitEntries_any_iff, fieldsEntries_any_iff]
    constructor
    · rintro (h | h | h)
      · exact absurd h.1 (by decide)
      · exact absurd h.1 (by decide)
      · exact h.2
    · intro h
      exact Or.inr (Or.inr ⟨rfl, h⟩)
  · unfold connectionAnnotationOpt
    cases hE : connectionArgEntries d <;> simp

/-- Witness for C8's amended statement: on the directive carrying `name`,
a truthy `limit` and a list-valued `fields`, all three argument shapes
render. -/
theorem connection_args_amended_witness :
    hasConnectionArg dConnFull "name" = true
    ∧ hasConnectionArg dConnFull "limit" = true
    ∧ hasConnectionArg dConnFull "fields" = true :=
  ⟨((connection_args_amended dConnFull).1 "name" (by decide)).mpr
      ⟨.str "byOwner", by decide⟩,
   ((connection_args_amended dConnFull).2.1).mpr ⟨.num 3, by decide, by decide⟩,
   ((connection_args_amended dConnFull).2.2.1).mpr ⟨["a", "b"], by decide⟩⟩

/-! ### C9: the additional-import set's lifecycle -/

/-- Adding a package only ever extends the set on the right. -/
theorem addPackage_extends (st : List String) (p : String) :
    ∃ t, addPackage st p = st ++ t := by
  unfold addPackage
  split
  · exact ⟨[], by simp⟩
  · exact ⟨[p], rfl⟩

/-- `getNativeType` only ever extends the set. -/
theorem getNativeType_extends (env : VisitorEnv) (st : List String)
    (f : CodeGenField) : ∃ t, (getNativeType env st f).2 = st ++ t := by
  simp only [getNativeType]
  split
  · exact addPackage_extends st _
  · exact ⟨[], by simp⟩

/-- A state-threaded map whose step only extends the state only extends
the state. -/
theorem stMap_extends {α β : Type} (f : List String → α → β × List String)
    (h : ∀ st a, ∃ t, (f st a).2 = st ++ t) :
    ∀ (st : List String) (l : List α), ∃ t, (stMap f st l).2 = st ++ t := by
  intro st l
  induction l generalizing st with
  | nil => exact ⟨[], by simp [stMap]⟩
  | cons a as ih =>
    obtain ⟨t1, h1⟩ := h st a
    obtain ⟨t2, h2⟩ := ih (f st a).2
    refine ⟨t1 ++ t2, ?_⟩
    show (stMap f (f st a).2 as).2 = st ++ (t1 ++ t2)
    rw [h2, h1, List.append_assoc]

/-- A fold whose step only extends the state only extends the state. -/
theorem foldl_extends {α : Type} (f : List String → α → List String)
    (h : ∀ st a, ∃ t, f st a = st ++ t) :
    ∀ (l : List α) (st : List String), ∃ t, l.foldl f st = st ++ t := by
  intro l
  induction l with
  | nil => exact fun st => ⟨[], by simp⟩
  | cons a as ih =>
    intro st
    obtain ⟨t1, h1⟩ := h st a
    obtain ⟨t2, h2⟩ := ih (f st a)
    refine ⟨t1 ++ t2, ?_⟩
    show List.foldl f (f st a) as = st ++ (t1 ++ t2)
    rw [h2, h1, List.append_assoc]

/-- The step-interface chain builder only extends the set. -/
theorem stepInterfacesAux_extends (env : VisitorEnv) (nonId : List CodeGenField) :
    ∀ (fs : List CodeGenField) (idx : Nat) (st : List String),
      ∃ t, (stepInterfacesAux env nonId idx st fs).2 = st ++ t := by
  intro fs
  induction fs with
  | nil => exact fun idx st => ⟨[], by simp [stepInterfacesAux]⟩
  | cons f fs ih =>
    intro idx st
    obtain ⟨t1, h1⟩ := getNativeType_extends env st f
    obtain ⟨t2, h2⟩ := ih (idx + 1) (mkStepInterface env st nonId idx f).2
    refine ⟨t1 ++ t2, ?_⟩
    have hmk : (mkStepInterface env st nonId idx f).2 = st ++ t1 := h1
    show (stepInterfacesAux env nonId (idx + 1) (mkStepInterface env st nonId idx f).2 fs).2
        = st ++ (t1 ++ t2)
    rw [h2, hmk, List.append_assoc]

/-- Right-extension is transitive. -/
theorem ext_trans {a b c : List String} (h1 : ∃ t, b = a ++ t)
    (h2 : ∃ t, c = b ++ t) : ∃ t, c = a ++ t := by
  obtain ⟨t1, rfl⟩ := h1
  obtain ⟨t2, rfl⟩ := h2
  exact ⟨t1 ++ t2, by simp⟩

/-- `generateStepBuilderInterfaces` only extends the set. -/
theorem generateStepBuilderInterfaces_extends (env : VisitorEnv)
    (st : List String) (m : CodeGenModel) :
    ∃ t, (generateStepBuilderInterfaces env st m).2 = st ++ t := by
  refine ext_trans (stepInterfacesAux_extends env (nonIdFieldsOf m) (nonIdFieldsOf m) 0 st) ?_
  exact stMap_extends
    (fun (s : List String) (f : CodeGenField) =>
      let r := getNativeType env s f
      (getStepInterfaceName env "Build" ++ " " ++ getFieldName env f ++ "(" ++ r.1
         ++ " " ++ getFieldName env f ++ ");", r.2))
    (fun s f => getNativeType_extends env s f) _ (nullableFields m)

/-- Counterexample to C9: in a pass over the model with a qualified-type
field followed by a second model, the `additionalPackages` set observed at
the start of the second model's class emission is NOT empty — the set is a
visitor-instance member, never cleared between models. -/
theorem importSet_trace_cex :
    (additionalPackagesTrace env0 [] [mDated, mNote]).all (fun s => s == []) = false := by
  decide

/-- The builder slot generation only extends the set. -/
theorem builderSlots_extends (env : VisitorEnv) (st : List String)
    (m : CodeGenModel) : ∃ t, (builderSlots env st m).2 = st ++ t := by
  unfold builderSlots
  exact stMap_extends
    (fun (s : List String) (f : CodeGenField) =>
      let r := getNativeType env s f
      ((getFieldName env f, r.1), r.2))
    (fun s f => getNativeType_extends env s f) st (nonNullableFields m ++ nullableFields m)

/-- The getter generation only extends the set. -/
theorem gettersOf_extends (env : VisitorEnv) (st : List String)
    (m : CodeGenModel) : ∃ t, (gettersOf env st m).2 = st ++ t := by
  unfold gettersOf
  exact stMap_extends
    (fun (s : List String) (f : CodeGenField) =>
      let r := getNativeType env s f
      ((getFieldGetterName env f, r.1), r.2))
    (fun s f => getNativeType_extends env s f) st m.fields

/-- The constructor generation only extends the set. -/
theorem constructorArguments_extends (env : VisitorEnv) (st : List String)
    (m : CodeGenModel) : ∃ t, (constructorArguments env st m).2 = st ++ t := by
  unfold constructorArguments
  exact stMap_extends
    (fun (s : List String) (f : CodeGenField) =>
      let r := getNativeType env s f
      ((getFieldName env f, r.1), r.2))
    (fun s f => getNativeType_extends env s f) st m.fields

/-- One model's whole class emission only extends the set. -/
theorem generateClassSt_extends (env : VisitorEnv) (st : List String)
    (m : CodeGenModel) : ∃ t, generateClassSt env st m = st ++ t := by
  unfold generateClassSt
  exact ext_trans (foldl_extends _ (fun s f => getNativeType_extends env s f) m.fields st)
    (ext_trans (generateStepBuilderInterfaces_extends env _ m)
      (ext_trans (builderSlots_extends env _ m)
        (ext_trans (foldl_extends _ (fun s f => getNativeType_extends env s f) (stepFieldsOf m) _)
          (ext_trans (foldl_extends _ (fun s f => getNativeType_extends env s f) (nullableFields m) _)
            (ext_trans (gettersOf_extends env _ m)
              (constructorArguments_extends env _ m))))))

/-- C9 as amended.  The set is per emission pass, not per model: each
model's class emission only appends to whatever the set already holds, and
the single package header of the pass renders the accumulated set (plus
the fixed base imports) without clearing it. -/
theorem importSet_monotone :
    (∀ (env : VisitorEnv) (st : List String) (m : CodeGenModel),
        ∃ t, generateClassSt env st m = st ++ t)
    ∧ (∀ (env : VisitorEnv) (st : List String) (models : List CodeGenModel),
        ∃ t, generateClassesSt env st models = st ++ t)
    ∧ (∀ (env : VisitorEnv) (st : List String),
        generatePackageHeaderImports env st = st ++ [""] ++ env.classImportPackages) := by
  refine ⟨generateClassSt_extends, ?_, fun env st => rfl⟩
  intro env st models
  exact foldl_extends _ (fun s m => generateClassSt_extends env s m) models st

/-! ### C7: content-version determinism and sensitivity -/

/-- Character codes are injective. -/
theorem natOfChar_inj (a b : Char) (h : natOfChar a = natOfChar b) : a = b := by
  simp only [natOfChar] at h
  have := congrArg Char.ofNat h
  rwa [Char.ofNat_toNat, Char.ofNat_toNat] at this

/-- List codes are injective when the element code is. -/
theorem natOfList_inj {α : Type} (e : α → Nat)
    (he : ∀ a b, e a = e b → a = b) :
    ∀ l₁ l₂, natOfList e l₁ = natOfList e l₂ → l₁ = l₂ := by
  intro l₁
  induction l₁ with
  | nil =>
    intro l₂ h
    cases l₂ with
    | nil => rfl
    | cons b bs =>
      simp only [natOfList] at h
      omega
  | cons a as ih =>
    intro l₂ h
    cases l₂ with
    | nil =>
      simp only [natOfList] at h
      omega
    | cons b bs =>
      simp only [natOfList] at h
      have h' : Nat.pair (e a) (natOfList e as) = Nat.pair (e b) (natOfList e bs) := by
        omega
      obtain ⟨h1, h2⟩ := Nat.pair_eq_pair.mp h'
      rw [he a b h1, ih bs h2]

/-- Strings with equal character lists are equal. -/
theorem string_data_inj (s t : String) (h : s.data = t.data) : s = t := by
  cases s
  cases t
  exact congrArg String.mk h

/-- String codes are injective. -/
theorem natOfString_inj (s t : String) (h : natOfString s = natOfString t) : s = t :=
  string_data_inj s t (natOfList_inj natOfChar natOfChar_inj s.data t.data h)

/-- Boolean codes are injective. -/
theorem natOfBool_inj (a b : Bool) (h : natOfBool a = natOfBool b) : a = b := by
  cases a <;> cases b <;> simp_all [natOfBool]

/-- Integer codes are injective. -/
theorem natOfInt_inj (a b : Int) (h : natOfInt a = natOfInt b) : a = b := by
  cases a with
  | ofNat m =>
    cases b with
    | ofNat n =>
      simp only [natOfInt] at h
      have hmn : m = n := by omega
      rw [hmn]
    | negSucc n =>
      simp only [natOfInt] at h
      omega
  | negSucc m =>
    cases b with
    | ofNat n =>
      simp only [natOfInt] at h
      omega
    | negSucc n =>
      simp only [natOfInt] at h
      have hmn : m = n := by omega
      rw [hmn]

/-- Argument-value codes are injective. -/
theorem natOfArgValue_inj (a b : CodeGenArgValue)
    (h : natOfArgValue a = natOfArgValue b) : a = b := by
  cases a with
  | str s₁ =>
    cases b with
    | str s₂ =>
      simp only [natOfArgValue] at h
      obtain ⟨-, h2⟩ := Nat.pair_eq_pair.mp h
      rw [natOfString_inj _ _ h2]
    | num n₂ =>
      simp only [natOfArgValue] at h
      obtain ⟨h1, -⟩ := Nat.pair_eq_pair.mp h
      omega
    | lst l₂ =>
      simp only [natOfArgValue] at h
      obtain ⟨h1, -⟩ := Nat.pair_eq_pair.mp h
      omega
  | num n₁ =>
    cases b with
    | str s₂ =>
      simp only [natOfArgValue] at h
      obtain ⟨h1, -⟩ := Nat.pair_eq_pair.mp h
      omega
    | num n₂ =>
      simp only [natOfArgValue] at h
      obtain ⟨-, h2⟩ := Nat.pair_eq_pair.mp h
      rw [natOfInt_inj _ _ h2]
    | lst l₂ =>
      simp only [natOfArgValue] at h
      obtain ⟨h1, -⟩ := Nat.pair_eq_pair.mp h
      omega
  | lst l₁ =>
    cases b with
    | str s₂ =>
      simp only [natOfArgValue] at h
      obtain ⟨h1, -⟩ := Nat.pair_eq_pair.mp h
      omega
    | num n₂ =>
      simp only [natOfArgValue] at h
      obtain ⟨h1, -⟩ := Nat.pair_eq_pair.mp h
      omega
    | lst l₂ =>
      simp only [natOfArgValue] at h
      obtain ⟨-, h2⟩ := Nat.pair_eq_pair.mp h
      rw [natOfList_inj natOfString natOfString_inj _ _ h2]

/-- Argument-entry codes are injective. -/
theorem natOfArgEntry_inj (p q : String × CodeGenArgValue)
    (h : natOfArgEntry p = natOfArgEntry q) : p = q := by
  cases p with
  | mk p1 p2 =>
    cases q with
    | mk q1 q2 =>
      simp only [natOfArgEntry] at h
      obtain ⟨h1, h2⟩ := Nat.pair_eq_pair.mp h
      obtain rfl := natOfString_inj _ _ h1
      obtain rfl := natOfArgValue_inj _ _ h2
      rfl

/-- Directive codes are injective. -/
theorem natOfDirective_inj (d₁ d₂ : CodeGenDirective)
    (h : natOfDirective d₁ = natOfDirective d₂) : d₁ = d₂ := by
  cases d₁ with
  | mk n₁ a₁ =>
    cases d₂ with
    | mk n₂ a₂ =>
      simp only [natOfDirective] at h
      obtain ⟨h1, h2⟩ := Nat.pair_eq_pair.mp h
      obtain rfl := natOfString_inj _ _ h1
      obtain rfl := natOfList_inj natOfArgEntry natOfArgEntry_inj _ _ h2
      rfl

/-- Field codes are injective. -/
theorem natOfField_inj (f₁ f₂ : CodeGenField)
    (h : natOfField f₁ = natOfField f₂) : f₁ = f₂ := by
  cases f₁ with
  | mk n₁ t₁ b₁ d₁ =>
    cases f₂ with
    | mk n₂ t₂ b₂ d₂ =>
      simp only [natOfField] at h
      obtain ⟨h1, h2⟩ := Nat.pair_eq_pair.mp h
      obtain ⟨h3, h4⟩ := Nat.pair_eq_pair.mp h2
      obtain ⟨h5, h6⟩ := Nat.pair_eq_pair.mp h4
      obtain rfl := natOfString_inj _ _ h1
      obtain rfl := natOfString_inj _ _ h3
      obtain rfl := natOfBool_inj _ _ h5
      obtain rfl := natOfList_inj natOfDirective natOfDirective_inj _ _ h6
      rfl

/-- Model codes are injective. -/
theorem natOfModel_inj (m₁ m₂ : CodeGenModel)
    (h : natOfModel m₁ = natOfModel m₂) : m₁ = m₂ := by
  cases m₁ with
  | mk n₁ f₁ d₁ =>
    cases m₂ with
    | mk n₂ f₂ d₂ =>
      simp only [natOfModel] at h
      obtain ⟨h1, h2⟩ := Nat.pair_eq_pair.mp h
      obtain ⟨h3, h4⟩ := Nat.pair_eq_pair.mp h2
      obtain rfl := natOfString_inj _ _ h1
      obtain rfl := natOfList_inj natOfField natOfField_inj _ _ h3
      obtain rfl := natOfList_inj natOfDirective natOfDirective_inj _ _ h4
      rfl

/-- Model-collection codes are injective. -/
theorem natOfModels_inj (ms₁ ms₂ : List CodeGenModel)
    (h : natOfModels ms₁ = natOfModels ms₂) : ms₁ = ms₂ :=
  natOfList_inj natOfModel natOfModel_inj ms₁ ms₂ h

/-- `Nat.digitChar` separates the ten decimal digits. -/
theorem digitChar_fin_inj :
    ∀ a b : Fin 10, Nat.digitChar a.val = Nat.digitChar b.val → a = b := by
  decide

/-- `Nat.digitChar` is injective below the base. -/
theorem digitChar_lt10_inj (a b : Nat) (ha : a < 10) (hb : b < 10)
    (h : Nat.digitChar a = Nat.digitChar b) : a = b := by
  have := digitChar_fin_inj ⟨a, ha⟩ ⟨b, hb⟩ h
  exact congrArg Fin.val this

/-- Mapping `Nat.digitChar` over digit lists is injective. -/
theorem map_digitChar_inj :
    ∀ l₁ l₂ : List Nat, (∀ d ∈ l₁, d < 10) → (∀ d ∈ l₂, d < 10) →
      l₁.map Nat.digitChar = l₂.map Nat.digitChar → l₁ = l₂ := by
  intro l₁
  induction l₁ with
  | nil =>
    intro l₂ _ _ h
    cases l₂ with
    | nil => rfl
    | cons b bs => simp at h
  | cons a as ih =>
    intro l₂ h1 h2 h
    cases l₂ with
    | nil => simp at h
    | cons b bs =>
      simp only [List.map_cons, List.cons.injEq] at h
      have ha : a < 10 := h1 a (by simp)
      have hb : b < 10 := h2 b (by simp)
      rw [digitChar_lt10_inj a b ha hb h.1,
        ih bs (fun d hd => h1 d (by simp [hd])) (fun d hd => h2 d (by simp [hd])) h.2]

/-- The rendered version string determines the content code. -/
theorem computeVersion_inj (ms₁ ms₂ : List CodeGenModel)
    (h : computeVersion ms₁ = computeVersion ms₂) : ms₁ = ms₂ := by
  unfold computeVersion at h
  have hdata : (Nat.digits 10 (natOfModels ms₁)).map Nat.digitChar
      = (Nat.digits 10 (natOfModels ms₂)).map Nat.digitChar := by
    injection h
  have hdigits : Nat.digits 10 (natOfModels ms₁) = Nat.digits 10 (natOfModels ms₂) :=
    map_digitChar_inj _ _ (fun d hd => Nat.digits_lt_base (by norm_num) hd)
      (fun d hd => Nat.digits_lt_base (by norm_num) hd) hdata
  have hnat : natOfModels ms₁ = natOfModels ms₂ := by
    have := congrArg (Nat.ofDigits 10) hdigits
    rwa [Nat.ofDigits_digits, Nat.ofDigits_digits] at this
  exact natOfModels_inj _ _ hnat

/-- Overwriting an element of a list reads back as the written value. -/
theorem set_getD_self {α : Type} [Inhabited α] (l : List α) (j : Nat) (a : α)
    (h : j < l.length) : (l.set j a).getD j default = a := by
  rw [List.getD_eq_getElem _ _ (by simpa [List.length_set] using h)]
  exact List.getElem_set_self _

/-- Altering one field's type yields a different collection. -/
theorem setFieldType_ne (ms : List CodeGenModel) (j i : Nat) (t : String)
    (hj : j < ms.length) (hi : i < (ms.getD j default).fields.length)
    (ht : t ≠ ((ms.getD j default).fields.getD i default).type) :
    setFieldType ms j i t ≠ ms := by
  intro heq
  unfold setFieldType at heq
  set m := ms.getD j default with hm
  set f := m.fields.getD i default with hf
  set f' : CodeGenField := { f with type := t } with hf'
  set M : CodeGenModel := { m with fields := m.fields.set i f' } with hM
  have hgj := set_getD_self ms j M hj
  rw [heq] at hgj
  rw [← hm] at hgj
  have hfields : m.fields = m.fields.set i f' := congrArg CodeGenModel.fields hgj
  have hgi := set_getD_self m.fields i f' hi
  rw [← hfields] at hgi
  rw [← hf] at hgi
  have htype : f.type = t := congrArg CodeGenField.type hgi
  exact ht htype.symm

/-- Altering one field's nullability yields a different collection. -/
theorem setFieldNullable_ne (ms : List CodeGenModel) (j i : Nat) (b : Bool)
    (hj : j < ms.length) (hi : i < (ms.getD j default).fields.length)
    (hb : b ≠ ((ms.getD j default).fields.getD i default).isNullable) :
    setFieldNullable ms j i b ≠ ms := by
  intro heq
  unfold setFieldNullable at heq
  set m := ms.getD j default with hm
  set f := m.fields.getD i default with hf
  set f' : CodeGenField := { f with isNullable := b } with hf'
  set M : CodeGenModel := { m with fields := m.fields.set i f' } with hM
  have hgj := set_getD_self ms j M hj
  rw [heq] at hgj
  rw [← hm] at hgj
  have hfields : m.fields = m.fields.set i f' := congrArg CodeGenModel.fields hgj
  have hgi := set_getD_self m.fields i f' hi
  rw [← hfields] at hgi
  rw [← hf] at hgi
  have hnull : f.isNullable = b := congrArg CodeGenField.isNullable hgi
  exact hb hnull.symm

/-- C7.  The loader's version string is deterministic in the model
collection's content — equal collections give equal strings — and
sensitive to it: distinct collections give distinct strings, and in
particular altering any field's declared type or nullability in any model
changes the version string. -/
theorem computeVersion_spec :
    (∀ ms₁ ms₂ : List CodeGenModel, ms₁ = ms₂ → computeVersion ms₁ = computeVersion ms₂)
    ∧ (∀ ms₁ ms₂ : List CodeGenModel,
        computeVersion ms₁ = computeVersion ms₂ → ms₁ = ms₂)
    ∧ (∀ (ms : List CodeGenModel) (j i : Nat) (t : String), j < ms.length →
        i < (ms.getD j default).fields.length →
        t ≠ ((ms.getD j default).fields.getD i default).type →
        computeVersion (setFieldType ms j i t) ≠ computeVersion ms)
    ∧ (∀ (ms : List CodeGenModel) (j i : Nat) (b : Bool), j < ms.length →
        i < (ms.getD j default).fields.length →
        b ≠ ((ms.getD j default).fields.getD i default).isNullable →
        computeVersion (setFieldNullable ms j i b) ≠ computeVersion ms) := by
  refine ⟨fun ms₁ ms₂ h => by rw [h], computeVersion_inj, ?_, ?_⟩
  · intro ms j i t hj hi ht hv
    exact setFieldType_ne ms j i t hj hi ht (computeVersion_inj _ _ hv)
  · intro ms j i b hj hi hb hv
    exact setFieldNullable_ne ms j i b hj hi hb (computeVersion_inj _ _ hv)

/-- Witness for C7: changing the single field's type of the concrete
one-model collection changes the version string. -/
theorem computeVersion_spec_witness :
    0 < ([mVer] : List CodeGenModel).length
    ∧ 0 < (([mVer] : List CodeGenModel).getD 0 default).fields.length
    ∧ "Int" ≠ ((([mVer] : List CodeGenModel).getD 0 default).fields.getD 0 default).type
    ∧ computeVersion (setFieldType [mVer] 0 0 "Int") ≠ computeVersion [mVer] :=
  ⟨by decide, by decide, by decide,
   computeVersion_spec.2.2.1 [mVer] 0 0 "Int" (by decide) (by decide) (by decide)⟩

end AmplifyJava
